import Mathlib

/-!
Shallow embedding of the haunted-house transition core: the animation state
machine, its timeline calculator, observer plumbing and the game registry.

The repository ships the test-suite for the transition controller
(`useTransitionController.test.tsx`, `HauntedHousePage.reset.test.tsx`,
`HauntedHousePage.property.test.tsx`, hand-visibility property tests) but the
implementation modules themselves (`types/animation`, `constants/transitionConfig`,
`hooks/useTransitionController`) are not part of the sources.  Definitions for
those are therefore modelled from the specification text, as flagged in their
doc comments; the game registry (`data/games`) is present in the sources and is
translated directly.

Times and durations are modelled as rationals (`ℚ`): the specification's
timeline algebra is exact linear arithmetic over the configured durations.
-/

/-- The eight animation states of the transition machine
(`types/animation`, values as enumerated throughout the test files). -/
inductive AnimationState where
  | IDLE
  | DOOR_OPENING
  | HAND_EMERGING
  | HAND_PAUSED
  | DRAGGING
  | FADING
  | NAVIGATING
  | RESETTING
  deriving DecidableEq, Repr, Fintype

namespace AnimationState

/-- Modelled from the spec: `isValidTransition(from, to)` is a static adjacency
check.  Missing module: `hooks/useTransitionController` (only its tests are in
the sources).  Allowed are the chain edges
`IDLE→DOOR_OPENING→HAND_EMERGING→HAND_PAUSED→DRAGGING→FADING→NAVIGATING`
and, per the spec, an edge from **every** state (including `IDLE`) to
`RESETTING`; all other pairs are invalid. -/
def isValidTransition (f t : AnimationState) : Bool :=
  (match f, t with
    | IDLE, DOOR_OPENING => true
    | DOOR_OPENING, HAND_EMERGING => true
    | HAND_EMERGING, HAND_PAUSED => true
    | HAND_PAUSED, DRAGGING => true
    | DRAGGING, FADING => true
    | FADING, NAVIGATING => true
    | _, _ => false)
  || (t == RESETTING)

/-- Modelled from the spec (and the hand-visibility property tests in the
sources, which fix the same three-element list): the skeleton hand is visible
exactly in `HAND_EMERGING`, `HAND_PAUSED` and `DRAGGING`. -/
def handVisible : AnimationState → Bool
  | HAND_EMERGING => true
  | HAND_PAUSED => true
  | DRAGGING => true
  | _ => false

end AnimationState

/-- A game-registry entry (`types`: `Game`).  The source record also carries a
React `component` field, which is presentation data with no behaviour; the
registry logic only inspects `id` (and `name`), so the embedding keeps those
two fields. -/
structure Game where
  id : String
  name : String
  deriving DecidableEq, Repr

/-- The five-entry game registry, translated from `data/games` in the
sources. -/
def games : List Game :=
  [ { id := "game1", name := "Mystery Maze" },
    { id := "game2", name := "Ghost Hunt" },
    { id := "game3", name := "Spooky Puzzle" },
    { id := "game4", name := "Pumpkin Slicer" },
    { id := "game5", name := "Endless Runner" } ]

/-- `getGameById`, translated from `data/games`:
`games.find((game) => game.id === id)`. -/
def getGameById (id : String) : Option Game :=
  games.find? (fun game => game.id == id)

/-- The five duration fields of `TransitionConfig` (seconds), modelled from the
spec; the missing module is `types/animation` / `constants/transitionConfig`. -/
structure TransitionConfig where
  doorDuration : ℚ
  handDuration : ℚ
  pauseDuration : ℚ
  dragDuration : ℚ
  fadeDuration : ℚ
  deriving DecidableEq, Repr

/-- A `{start, end}` interval of elapsed seconds (named `PhaseInterval` here because `Interval` already exists in the ambient library). -/
structure PhaseInterval where
  start : ℚ
  «end» : ℚ
  deriving DecidableEq, Repr

/-- The named phase intervals derived from a `TransitionConfig`. -/
structure Timeline where
  door : PhaseInterval
  handEmerging : PhaseInterval
  handPause : PhaseInterval
  drag : PhaseInterval
  fade : PhaseInterval
  navigate : PhaseInterval
  deriving DecidableEq, Repr

/-- Modelled from the spec: `calculateTimeline(config)` from the missing
module `constants/transitionConfig`.  Cumulative boundaries in the fixed order
door → hand-emerging → hand-pause → drag, with
`fade.start = drag.start + 0.7 * dragDuration`, `fade.end = fade.start +
fadeDuration`, and `navigate.start = fade.end` exactly (the `navigate`
interval is the instant at which navigation fires, so its end is its
start). -/
def calculateTimeline (config : TransitionConfig) : Timeline :=
  let doorEnd := config.doorDuration
  let handEnd := doorEnd + config.handDuration
  let pauseEnd := handEnd + config.pauseDuration
  let dragEnd := pauseEnd + config.dragDuration
  let fadeStart := pauseEnd + (7 / 10 : ℚ) * config.dragDuration
  let fadeEnd := fadeStart + config.fadeDuration
  { door := { start := 0, «end» := doorEnd }
    handEmerging := { start := doorEnd, «end» := handEnd }
    handPause := { start := handEnd, «end» := pauseEnd }
    drag := { start := pauseEnd, «end» := dragEnd }
    fade := { start := fadeStart, «end» := fadeEnd }
    navigate := { start := fadeEnd, «end» := fadeEnd } }

/-- Index (0–5) of the phase whose timeline interval contains elapsed time
`t`, in the fixed chain order
`DOOR_OPENING, HAND_EMERGING, HAND_PAUSED, DRAGGING, FADING, NAVIGATING`.
Modelled from the spec: the tick "recomputes `currentState` and `progress` by
locating which Timeline interval contains `totalElapsed`"; the `DRAGGING`
phase ends where `fade` begins (the state chain is `DRAGGING→FADING`, fade
overlapping the tail of drag), a boundary counts as reached at its exact
instant, and from `navigate.start` on the machine is in `NAVIGATING`. -/
def phaseIdx (tl : Timeline) (t : ℚ) : Nat :=
  if t < tl.door.«end» then 0
  else if t < tl.handEmerging.«end» then 1
  else if t < tl.handPause.«end» then 2
  else if t < tl.fade.start then 3
  else if t < tl.navigate.start then 4
  else 5

/-- The animation state of the phase with the given chain index. -/
def stateOfIdx : Nat → AnimationState
  | 0 => AnimationState.DOOR_OPENING
  | 1 => AnimationState.HAND_EMERGING
  | 2 => AnimationState.HAND_PAUSED
  | 3 => AnimationState.DRAGGING
  | 4 => AnimationState.FADING
  | _ => AnimationState.NAVIGATING

/-- The animation state whose timeline interval contains elapsed time `t`. -/
def stateAt (tl : Timeline) (t : ℚ) : AnimationState :=
  stateOfIdx (phaseIdx tl t)

/-- Fractional progress (0..1) within the phase interval containing `t`
(modelled from the spec's `progress: number (0..1 within current phase)`;
once `navigate.start` is reached the phase is the navigation instant and
progress is 1). -/
def progressAt (tl : Timeline) (t : ℚ) : ℚ :=
  if t < tl.door.«end» then (t - tl.door.start) / (tl.door.«end» - tl.door.start)
  else if t < tl.handEmerging.«end» then
    (t - tl.handEmerging.start) / (tl.handEmerging.«end» - tl.handEmerging.start)
  else if t < tl.handPause.«end» then
    (t - tl.handPause.start) / (tl.handPause.«end» - tl.handPause.start)
  else if t < tl.fade.start then
    (t - tl.drag.start) / (tl.fade.start - tl.drag.start)
  else if t < tl.navigate.start then
    (t - tl.fade.start) / (tl.navigate.start - tl.fade.start)
  else 1

/-- The mutable transition state owned by the machine (`TransitionState` in
the spec's data model): current state, per-phase progress, accumulated
elapsed seconds, and the selected game reference. -/
structure TransitionState where
  currentState : AnimationState
  progress : ℚ
  totalElapsed : ℚ
  selectedGame : Option Game
  deriving DecidableEq, Repr

/-- The initial transition state: created at `IDLE` with zero
progress/elapsed and no selected game. -/
def initialTransitionState : TransitionState :=
  { currentState := AnimationState.IDLE
    progress := 0
    totalElapsed := 0
    selectedGame := none }

/-- Modelled from the spec: the transition controller owned by
`useTransitionController` (module missing from the sources).  Besides the
`TransitionState` it carries its duration configuration, the injected
game-provider result (`provider` stands for the game the provider returns),
the ordered list of registered observer handles (`listeners`, fresh handles
drawn from `nextId`), and three chronological histories that make the
side-effect contracts provable: `events` records every committed transition
`(newState, oldState)`, `log` records every observer invocation
`(handle, newState, oldState)`, and `completions` records every invocation of
the construction-supplied completion callback with its argument. -/
structure Controller where
  config : TransitionConfig
  provider : Game
  ts : TransitionState
  nextId : Nat
  listeners : List Nat
  events : List (AnimationState × AnimationState)
  log : List (Nat × AnimationState × AnimationState)
  completions : List (Option Game)
  deriving DecidableEq, Repr

/-- A freshly constructed controller: `IDLE`, no observers, empty histories. -/
def Controller.mk0 (config : TransitionConfig) (provider : Game) : Controller :=
  { config := config
    provider := provider
    ts := initialTransitionState
    nextId := 0
    listeners := []
    events := []
    log := []
    completions := [] }

namespace Controller

/-- Commit one transition `(newState, oldState)`: append it to the event
history and invoke every registered observer in registration order. -/
def fire (c : Controller) (newS oldS : AnimationState) : Controller :=
  { c with
    events := c.events ++ [(newS, oldS)]
    log := c.log ++ c.listeners.map (fun h => (h, newS, oldS)) }

/-- Modelled from the spec: `reset()` unconditionally forces
`currentState = IDLE`, `progress = 0`, `totalElapsed = 0`,
`selectedGame = null`, and always notifies observers with
`(IDLE, previousState)`, even when the previous state was already `IDLE`. -/
def reset (c : Controller) : Controller :=
  let prev := c.ts.currentState
  fire { c with ts := initialTransitionState } AnimationState.IDLE prev

/-- Modelled from the spec: `startTransition()` is a no-op (state and all
fields unchanged) unless `currentState === IDLE`; otherwise it transitions to
`DOOR_OPENING`, resets progress and elapsed to 0, and notifies observers with
`(DOOR_OPENING, IDLE)`. -/
def startTransition (c : Controller) : Controller :=
  if c.ts.currentState = AnimationState.IDLE then
    fire
      { c with ts :=
          { currentState := AnimationState.DOOR_OPENING
            progress := 0
            totalElapsed := 0
            selectedGame := c.ts.selectedGame } }
      AnimationState.DOOR_OPENING AnimationState.IDLE
  else c

/-- Modelled from the spec: `onStateChange(callback)` registers an observer
and returns the deregistration handle for exactly that registration.  The
callback itself is identified by the fresh handle. -/
def onStateChange (c : Controller) : Controller × Nat :=
  ({ c with listeners := c.listeners ++ [c.nextId], nextId := c.nextId + 1 },
   c.nextId)

/-- Modelled from the spec: invoking the unsubscribe function returned by
`onStateChange` deregisters that specific callback. -/
def unsubscribe (c : Controller) (h : Nat) : Controller :=
  { c with listeners := c.listeners.filter (fun x => x ≠ h) }

/-- Commit the boundary crossing into the phase of chain index `i + 1`:
entering `DRAGGING` synchronously draws the selected game from the injected
provider; entering `NAVIGATING` invokes the completion callback once with the
selected game reference; every crossing notifies the observers. -/
def commitCrossing (c : Controller) (i : Nat) : Controller :=
  let oldS := stateOfIdx i
  let newS := stateOfIdx (i + 1)
  let c1 :=
    if newS = AnimationState.DRAGGING then
      { c with ts := { c.ts with selectedGame := some c.provider } }
    else c
  let c2 :=
    if newS = AnimationState.NAVIGATING then
      { c1 with completions := c1.completions ++ [c1.ts.selectedGame] }
    else c1
  fire c2 newS oldS

/-- Commit a list of boundary crossings, in order. -/
def commitCrossings (c : Controller) : List Nat → Controller
  | [] => c
  | i :: rest => commitCrossings (commitCrossing c i) rest

/-- Modelled from the spec: the per-frame tick, driven by the host's
animation loop.  While a transition is active (neither `IDLE` — nothing is
animating — nor `NAVIGATING` — ticks are no-ops until reset), it advances
`totalElapsed` by the frame delta, commits one transition per phase boundary
crossed, in chronological order, and recomputes `currentState` and `progress`
from the timeline interval containing the new elapsed time. -/
def tick (c : Controller) (d : ℚ) : Controller :=
  if c.ts.currentState = AnimationState.IDLE
      ∨ c.ts.currentState = AnimationState.NAVIGATING then c
  else
    let tl := calculateTimeline c.config
    let t1 := c.ts.totalElapsed + d
    let i0 := phaseIdx tl c.ts.totalElapsed
    let i1 := phaseIdx tl t1
    let c' := commitCrossings c (List.range' i0 (i1 - i0))
    { c' with ts :=
        { currentState := stateOfIdx i1
          progress := progressAt tl t1
          totalElapsed := t1
          selectedGame := c'.ts.selectedGame } }

/-- Apply a list of frame deltas as successive ticks. -/
def ticks (c : Controller) : List ℚ → Controller
  | [] => c
  | d :: ds => ticks (tick c d) ds

end Controller

/-- One observable operation on the controller, for stating temporal
guarantees over arbitrary interleavings of the public surface. -/
inductive Op where
  | start
  | reset
  | tick (d : ℚ)
  | subscribe
  | unsub (h : Nat)
  deriving DecidableEq, Repr

/-- Apply one operation. -/
def applyOp (c : Controller) : Op → Controller
  | Op.start => c.startTransition
  | Op.reset => c.reset
  | Op.tick d => c.tick d
  | Op.subscribe => (c.onStateChange).1
  | Op.unsub h => c.unsubscribe h

/-- Apply a list of operations in order. -/
def applyOps (c : Controller) : List Op → Controller
  | [] => c
  | o :: os => applyOps (applyOp c o) os

/-- The spec's well-formedness condition on a configuration: all five
durations are non-negative. -/
def TransitionConfig.Nonneg (cfg : TransitionConfig) : Prop :=
  0 ≤ cfg.doorDuration ∧ 0 ≤ cfg.handDuration ∧ 0 ≤ cfg.pauseDuration ∧
    0 ≤ cfg.dragDuration ∧ 0 ≤ cfg.fadeDuration

instance (cfg : TransitionConfig) : Decidable cfg.Nonneg := by
  unfold TransitionConfig.Nonneg; infer_instance

/-- The spec's strict condition: all five durations are positive. -/
def TransitionConfig.Pos (cfg : TransitionConfig) : Prop :=
  0 < cfg.doorDuration ∧ 0 < cfg.handDuration ∧ 0 < cfg.pauseDuration ∧
    0 < cfg.dragDuration ∧ 0 < cfg.fadeDuration

instance (cfg : TransitionConfig) : Decidable cfg.Pos := by
  unfold TransitionConfig.Pos; infer_instance

lemma stateOfIdx_ne_IDLE (n : ℕ) : stateOfIdx n ≠ AnimationState.IDLE := by
  unfold stateOfIdx
  split <;> decide

lemma stateOfIdx_eq_NAVIGATING (n : ℕ) :
    stateOfIdx n = AnimationState.NAVIGATING ↔ 5 ≤ n := by
  rcases n with _|_|_|_|_|m <;> simp [stateOfIdx]

lemma stateOfIdx_eq_DRAGGING (n : ℕ) :
    stateOfIdx n = AnimationState.DRAGGING ↔ n = 3 := by
  rcases n with _|_|_|_|_|m <;> simp [stateOfIdx]

lemma phaseIdx_le_five (tl : Timeline) (t : ℚ) : phaseIdx tl t ≤ 5 := by
  unfold phaseIdx
  split_ifs <;> omega

lemma phaseIdx_mono (tl : Timeline) {t0 t1 : ℚ} (h : t0 ≤ t1) :
    phaseIdx tl t0 ≤ phaseIdx tl t1 := by
  unfold phaseIdx
  split_ifs <;> first | omega | (exfalso; linarith)

lemma navigate_le_of_phaseIdx_eq_five (tl : Timeline) (t : ℚ)
    (h : phaseIdx tl t = 5) : tl.navigate.start ≤ t := by
  unfold phaseIdx at h
  split_ifs at h with a b c d e <;>
    first | exact absurd h (by omega) | exact not_lt.mp e

lemma phaseIdx_eq_five_of_navigate_le (cfg : TransitionConfig) (hc : cfg.Nonneg)
    (t : ℚ) (h : (calculateTimeline cfg).navigate.start ≤ t) :
    phaseIdx (calculateTimeline cfg) t = 5 := by
  obtain ⟨h1, h2, h3, h4, h5⟩ := hc
  have h4' : 0 ≤ (7 / 10 : ℚ) * cfg.dragDuration :=
    mul_nonneg (by norm_num) h4
  simp only [calculateTimeline] at h ⊢
  unfold phaseIdx
  split_ifs with a b c d e <;> first | rfl | (exfalso; linarith)

namespace Controller

lemma commitCrossing_config (c : Controller) (i : ℕ) :
    (c.commitCrossing i).config = c.config := by
  simp only [commitCrossing, fire]
  split_ifs <;> rfl

lemma commitCrossing_provider (c : Controller) (i : ℕ) :
    (c.commitCrossing i).provider = c.provider := by
  simp only [commitCrossing, fire]
  split_ifs <;> rfl

lemma commitCrossing_listeners (c : Controller) (i : ℕ) :
    (c.commitCrossing i).listeners = c.listeners := by
  simp only [commitCrossing, fire]
  split_ifs <;> rfl

lemma commitCrossing_nextId (c : Controller) (i : ℕ) :
    (c.commitCrossing i).nextId = c.nextId := by
  simp only [commitCrossing, fire]
  split_ifs <;> rfl

lemma commitCrossing_events (c : Controller) (i : ℕ) :
    (c.commitCrossing i).events =
      c.events ++ [(stateOfIdx (i + 1), stateOfIdx i)] := by
  simp only [commitCrossing, fire]
  split_ifs <;> rfl

lemma commitCrossing_log (c : Controller) (i : ℕ) :
    (c.commitCrossing i).log =
      c.log ++ c.listeners.map (fun h => (h, stateOfIdx (i + 1), stateOfIdx i)) := by
  simp only [commitCrossing, fire]
  split_ifs <;> rfl

lemma commitCrossing_selectedGame (c : Controller) (i : ℕ) :
    (c.commitCrossing i).ts.selectedGame =
      if i = 2 then some c.provider else c.ts.selectedGame := by
  simp only [commitCrossing, fire]
  rcases eq_or_ne i 2 with h | h
  · subst h
    norm_num [stateOfIdx]
    split_ifs <;> rfl
  · have hD : stateOfIdx (i + 1) ≠ AnimationState.DRAGGING := by
      rw [Ne, stateOfIdx_eq_DRAGGING]
      omega
    simp only [hD, if_false, if_neg h]
    split_ifs <;> rfl

lemma commitCrossing_completions (c : Controller) (i : ℕ) :
    (c.commitCrossing i).completions =
      c.completions ++ (if 4 ≤ i then [c.ts.selectedGame] else []) := by
  simp only [commitCrossing, fire]
  rcases le_or_lt 4 i with h | h
  · have hN : stateOfIdx (i + 1) = AnimationState.NAVIGATING := by
      rw [stateOfIdx_eq_NAVIGATING]
      omega
    have hD : stateOfIdx (i + 1) ≠ AnimationState.DRAGGING := by
      rw [Ne, stateOfIdx_eq_DRAGGING]
      omega
    simp [hN, hD, h]
  · have hN : stateOfIdx (i + 1) ≠ AnimationState.NAVIGATING := by
      rw [Ne, stateOfIdx_eq_NAVIGATING]
      omega
    simp only [hN, if_false, if_neg (not_le.mpr h), List.append_nil]
    split_ifs <;> rfl

lemma commitCrossings_config (l : List ℕ) (c : Controller) :
    (c.commitCrossings l).config = c.config := by
  induction l generalizing c with
  | nil => rfl
  | cons i rest ih => rw [commitCrossings, ih, commitCrossing_config]

lemma commitCrossings_provider (l : List ℕ) (c : Controller) :
    (c.commitCrossings l).provider = c.provider := by
  induction l generalizing c with
  | nil => rfl
  | cons i rest ih => rw [commitCrossings, ih, commitCrossing_provider]

lemma commitCrossings_listeners (l : List ℕ) (c : Controller) :
    (c.commitCrossings l).listeners = c.listeners := by
  induction l generalizing c with
  | nil => rfl
  | cons i rest ih => rw [commitCrossings, ih, commitCrossing_listeners]

lemma commitCrossings_nextId (l : List ℕ) (c : Controller) :
    (c.commitCrossings l).nextId = c.nextId := by
  induction l generalizing c with
  | nil => rfl
  | cons i rest ih => rw [commitCrossings, ih, commitCrossing_nextId]

lemma commitCrossings_events (l : List ℕ) (c : Controller) :
    (c.commitCrossings l).events =
      c.events ++ l.map (fun i => (stateOfIdx (i + 1), stateOfIdx i)) := by
  induction l generalizing c with
  | nil => simp [commitCrossings]
  | cons i rest ih =>
      rw [commitCrossings, ih, commitCrossing_events]
      simp [List.append_assoc]

lemma commitCrossings_log_suffix (l : List ℕ) (c : Controller) :
    ∃ t, (c.commitCrossings l).log = c.log ++ t ∧ ∀ e ∈ t, e.1 ∈ c.listeners := by
  induction l generalizing c with
  | nil => exact ⟨[], by simp [commitCrossings], by simp⟩
  | cons i rest ih =>
      obtain ⟨t, ht, hmem⟩ := ih (c.commitCrossing i)
      refine ⟨c.listeners.map (fun h => (h, stateOfIdx (i + 1), stateOfIdx i)) ++ t,
        ?_, ?_⟩
      · rw [commitCrossings, ht, commitCrossing_log, List.append_assoc]
      · intro e he
        rcases List.mem_append.mp he with h | h
        · obtain ⟨a, ha, rfl⟩ := List.mem_map.mp h
          exact ha
        · have := hmem e h
          rwa [commitCrossing_listeners] at this

lemma commitCrossings_selectedGame (l : List ℕ) (c : Controller) :
    (c.commitCrossings l).ts.selectedGame =
      if 2 ∈ l then some c.provider else c.ts.selectedGame := by
  induction l generalizing c with
  | nil => simp [commitCrossings]
  | cons i rest ih =>
      rw [commitCrossings, ih, commitCrossing_provider, commitCrossing_selectedGame]
      rcases eq_or_ne i 2 with h | h
      · subst h
        simp
      · simp [h, Ne.symm h, List.mem_cons]

lemma commitCrossings_completions (l : List ℕ) (c : Controller)
    (hs : l.Pairwise (· < ·)) (hb : ∀ i ∈ l, i ≤ 4) :
    (c.commitCrossings l).completions =
      c.completions ++
        (if 4 ∈ l then [if 2 ∈ l then some c.provider else c.ts.selectedGame]
         else []) := by
  induction l generalizing c with
  | nil => simp [commitCrossings]
  | cons i rest ih =>
      obtain ⟨hlt, hrest⟩ := List.pairwise_cons.mp hs
      have hb' : ∀ j ∈ rest, j ≤ 4 := fun j hj => hb j (List.mem_cons_of_mem _ hj)
      rw [commitCrossings, ih (c.commitCrossing i) hrest hb',
        commitCrossing_provider, commitCrossing_selectedGame,
        commitCrossing_completions]
      rcases eq_or_ne i 4 with h4 | h4
      · subst h4
        have hrestnil : rest = [] := by
          cases rest with
          | nil => rfl
          | cons j js =>
              have hj4 := hb' j (by simp)
              have := hlt j (by simp)
              omega
        subst hrestnil
        simp
      · have hi4 : ¬ 4 ≤ i := by
          have := hb i (List.mem_cons_self _ _)
          omega
        have h4rest : (4 ∈ i :: rest) = (4 ∈ rest) := by
          simp [List.mem_cons, Ne.symm h4]
        rcases eq_or_ne i 2 with h2 | h2
        · subst h2
          have h2rest : 2 ∉ rest := fun hmem => by
            have := hlt 2 hmem
            omega
          simp [hi4, h2rest, h4rest]
        · simp [hi4, h2, Ne.symm h2, Ne.symm h4, List.mem_cons]

lemma tick_currentState_ne_IDLE (c : Controller) (d : ℚ)
    (h : c.ts.currentState ≠ AnimationState.IDLE) :
    (c.tick d).ts.currentState ≠ AnimationState.IDLE := by
  unfold tick
  split_ifs with hg
  · exact h
  · exact stateOfIdx_ne_IDLE _

lemma ticks_currentState_ne_IDLE (ds : List ℚ) (c : Controller)
    (h : c.ts.currentState ≠ AnimationState.IDLE) :
    (c.ticks ds).ts.currentState ≠ AnimationState.IDLE := by
  induction ds generalizing c with
  | nil => exact h
  | cons d ds ih => exact ih _ (tick_currentState_ne_IDLE c d h)

lemma startTransition_of_ne_IDLE (c : Controller)
    (h : c.ts.currentState ≠ AnimationState.IDLE) :
    c.startTransition = c := by
  unfold startTransition
  exact if_neg h

end Controller

/-- The concrete configuration used by the spec's concrete timeline
scenario. -/
def sampleConfig : TransitionConfig :=
  { doorDuration := 1, handDuration := 1, pauseDuration := 1 / 2,
    dragDuration := 2, fadeDuration := 1 }

/-- A concrete registry entry, standing in for the injected game provider's
pick. -/
def sampleGame : Game := { id := "game1", name := "Mystery Maze" }

/-- A freshly constructed controller over the sample configuration. -/
def sampleController : Controller := Controller.mk0 sampleConfig sampleGame

/-- Claim C1, counterexample.  The claim asserts that every same-state pair
`isValidTransition(S, S)` returns `false` for every `S`, while it also
asserts that `isValidTransition(from, RESETTING)` is `true` for every `from`;
at the concrete pair `(RESETTING, RESETTING)` the modelled transition check
returns `true` (the universal edge to `RESETTING` applies), refuting the
claim's same-state clause at `S = RESETTING`. -/
theorem isValidTransition_self_RESETTING :
    AnimationState.isValidTransition AnimationState.RESETTING
      AnimationState.RESETTING = true := rfl

/-- Claim C1 (amended): `isValidTransition(from, to)` returns `true` exactly
for the six chain edges and for every pair with `to = RESETTING` (every
`from`, including `IDLE` and `RESETTING` itself); every other pair returns
`false`, including every same-state pair `(S, S)` for every `S` other than
`RESETTING` and the skip-ahead pairs `(IDLE, HAND_EMERGING)` and
`(DOOR_OPENING, DRAGGING)`. -/
theorem isValidTransition_spec :
    (∀ f t : AnimationState, AnimationState.isValidTransition f t = true ↔
      ((f = AnimationState.IDLE ∧ t = AnimationState.DOOR_OPENING) ∨
       (f = AnimationState.DOOR_OPENING ∧ t = AnimationState.HAND_EMERGING) ∨
       (f = AnimationState.HAND_EMERGING ∧ t = AnimationState.HAND_PAUSED) ∨
       (f = AnimationState.HAND_PAUSED ∧ t = AnimationState.DRAGGING) ∨
       (f = AnimationState.DRAGGING ∧ t = AnimationState.FADING) ∨
       (f = AnimationState.FADING ∧ t = AnimationState.NAVIGATING) ∨
       t = AnimationState.RESETTING)) ∧
    (∀ s : AnimationState, s ≠ AnimationState.RESETTING →
      AnimationState.isValidTransition s s = false) ∧
    AnimationState.isValidTransition AnimationState.IDLE
      AnimationState.HAND_EMERGING = false ∧
    AnimationState.isValidTransition AnimationState.DOOR_OPENING
      AnimationState.DRAGGING = false := by
  refine ⟨by decide, by decide, rfl, rfl⟩

/-- Witness for the amended C1 theorem at the concrete self-loop
`(IDLE, IDLE)`. -/
theorem isValidTransition_spec_witness :
    AnimationState.isValidTransition AnimationState.IDLE
      AnimationState.IDLE = false :=
  isValidTransition_spec.2.1 AnimationState.IDLE (by decide)

/-- Claim C5: on the concrete configuration
`{doorDuration: 1, handDuration: 1, pauseDuration: 0.5, dragDuration: 2,
fadeDuration: 1}` the timeline is `door = {0, 1}`,
`handEmerging = {1, 2}`, `handPause = {2, 2.5}`, `drag = {2.5, 4.5}`,
`fade = {3.9, 4.9}` and `navigate.start = 4.9`. -/
theorem calculateTimeline_concrete :
    calculateTimeline
        { doorDuration := 1, handDuration := 1, pauseDuration := 1 / 2,
          dragDuration := 2, fadeDuration := 1 } =
      { door := { start := 0, «end» := 1 },
        handEmerging := { start := 1, «end» := 2 },
        handPause := { start := 2, «end» := 5 / 2 },
        drag := { start := 5 / 2, «end» := 9 / 2 },
        fade := { start := 39 / 10, «end» := 49 / 10 },
        navigate := { start := 49 / 10, «end» := 49 / 10 } } := by
  norm_num [calculateTimeline]

/-- Claim C4: for every configuration with five positive durations,
`fade.start` equals `drag.start + 0.7 * (drag.end - drag.start)` exactly
(hence within the claimed tolerance of `1e-3`), `fade.start < drag.end`, and
`navigate.start = fade.end` exactly. -/
theorem calculateTimeline_fade_spec (config : TransitionConfig)
    (hp : config.Pos) :
    (calculateTimeline config).fade.start =
        (calculateTimeline config).drag.start +
          (7 / 10 : ℚ) * ((calculateTimeline config).drag.«end» -
            (calculateTimeline config).drag.start) ∧
    |(calculateTimeline config).fade.start -
        ((calculateTimeline config).drag.start +
          (7 / 10 : ℚ) * ((calculateTimeline config).drag.«end» -
            (calculateTimeline config).drag.start))| < 1 / 1000 ∧
    (calculateTimeline config).fade.start < (calculateTimeline config).drag.«end» ∧
    (calculateTimeline config).navigate.start =
      (calculateTimeline config).fade.«end» := by
  obtain ⟨h1, h2, h3, h4, h5⟩ := hp
  have hz : (calculateTimeline config).fade.start =
      (calculateTimeline config).drag.start +
        (7 / 10 : ℚ) * ((calculateTimeline config).drag.«end» -
          (calculateTimeline config).drag.start) := by
    simp only [calculateTimeline]
    ring
  refine ⟨hz, ?_, ?_, rfl⟩
  · rw [hz]
    norm_num
  · simp only [calculateTimeline]
    linarith

/-- Witness for C4 at the sample configuration. -/
theorem calculateTimeline_fade_spec_witness :
    (calculateTimeline sampleConfig).fade.start <
      (calculateTimeline sampleConfig).drag.«end» :=
  (calculateTimeline_fade_spec sampleConfig
    (by norm_num [TransitionConfig.Pos, sampleConfig])).2.2.1

/-- Claim C9: the derived hand visibility is `true` exactly in
`HAND_EMERGING`, `HAND_PAUSED` and `DRAGGING`, and `false` in the other five
states, in particular immediately after any `reset()` (whose resulting
current state is `IDLE`). -/
theorem handVisible_spec :
    (∀ s : AnimationState, AnimationState.handVisible s = true ↔
      (s = AnimationState.HAND_EMERGING ∨ s = AnimationState.HAND_PAUSED ∨
        s = AnimationState.DRAGGING)) ∧
    (∀ c : Controller,
      AnimationState.handVisible (c.reset).ts.currentState = false) :=
  ⟨by decide, fun _ => rfl⟩

/-- Claim C10: every one of the five registry entries is returned by
`getGameById` on its own id, the registry's ids are exactly
`game1 … game5`, and every other id string yields `undefined` (`none`). -/
theorem getGameById_spec :
    games.map Game.id = ["game1", "game2", "game3", "game4", "game5"] ∧
    (∀ g ∈ games, getGameById g.id = some g) ∧
    (∀ id : String,
      id ∉ ["game1", "game2", "game3", "game4", "game5"] →
        getGameById id = none) := by
  refine ⟨rfl, by decide, ?_⟩
  intro id h
  simp only [List.mem_cons, List.not_mem_nil, or_false, not_or] at h
  obtain ⟨h1, h2, h3, h4, h5⟩ := h
  have e1 : (("game1" : String) == id) = false :=
    beq_eq_false_iff_ne.mpr (Ne.symm h1)
  have e2 : (("game2" : String) == id) = false :=
    beq_eq_false_iff_ne.mpr (Ne.symm h2)
  have e3 : (("game3" : String) == id) = false :=
    beq_eq_false_iff_ne.mpr (Ne.symm h3)
  have e4 : (("game4" : String) == id) = false :=
    beq_eq_false_iff_ne.mpr (Ne.symm h4)
  have e5 : (("game5" : String) == id) = false :=
    beq_eq_false_iff_ne.mpr (Ne.symm h5)
  simp [getGameById, games, List.find?, e1, e2, e3, e4, e5]

/-- Witness for C10: a registry id round-trips, a foreign id misses. -/
theorem getGameById_spec_witness :
    getGameById "game3" = some { id := "game3", name := "Spooky Puzzle" } ∧
    getGameById "slender" = none :=
  ⟨getGameById_spec.2.1 { id := "game3", name := "Spooky Puzzle" } (by decide),
   getGameById_spec.2.2 "slender" (by decide)⟩

lemma reset_iterate_ts (m : ℕ) (c : Controller) :
    (Controller.reset^[m] c.reset).ts = initialTransitionState := by
  induction m generalizing c with
  | zero => rfl
  | succ k ih =>
      rw [Function.iterate_succ_apply]
      exact ih c.reset

/-- Claim C2: `reset()` is idempotent — for every controller (in particular
every reachable one) and every `N ≥ 1`, calling it `N` times ends in the same
final `{IDLE, progress 0, elapsed 0, selectedGame none}` state as calling it
once — and every single `reset()` call fires one observer notification
`(IDLE, previousState)` to the event history and to every registered
observer, even when the previous state was already `IDLE`. -/
theorem reset_spec (c : Controller) (n : ℕ) (hn : 1 ≤ n) :
    (Controller.reset^[n] c).ts = c.reset.ts ∧
    c.reset.ts =
      { currentState := AnimationState.IDLE, progress := 0, totalElapsed := 0,
        selectedGame := none } ∧
    c.reset.events = c.events ++ [(AnimationState.IDLE, c.ts.currentState)] ∧
    c.reset.log =
      c.log ++ c.listeners.map
        (fun h => (h, AnimationState.IDLE, c.ts.currentState)) := by
  refine ⟨?_, rfl, rfl, rfl⟩
  obtain ⟨m, rfl⟩ : ∃ m, n = m + 1 := ⟨n - 1, by omega⟩
  rw [Function.iterate_succ_apply]
  exact reset_iterate_ts m c

/-- Witness for C2: three resets of the sample controller end where one
does. -/
theorem reset_spec_witness :
    (Controller.reset^[3] sampleController).ts = sampleController.reset.ts :=
  (reset_spec sampleController 3 (by norm_num)).1

/-- Claim C3: `startTransition()` is a strict no-op (the whole controller,
hence state, progress, elapsed, selected game and histories, is unchanged)
unless the current state is `IDLE`; from `IDLE` it moves to `DOOR_OPENING`
with progress and elapsed reset to 0, notifying the event history and every
registered observer with `(DOOR_OPENING, IDLE)`; and after starting from
`IDLE`, no sequence of ticks can make a second `startTransition()` call
change anything before a reset returns the machine to `IDLE`. -/
theorem startTransition_spec :
    (∀ c : Controller, c.ts.currentState ≠ AnimationState.IDLE →
      c.startTransition = c) ∧
    (∀ c : Controller, c.ts.currentState = AnimationState.IDLE →
      c.startTransition.ts =
          { currentState := AnimationState.DOOR_OPENING, progress := 0,
            totalElapsed := 0, selectedGame := c.ts.selectedGame } ∧
      c.startTransition.events =
          c.events ++ [(AnimationState.DOOR_OPENING, AnimationState.IDLE)] ∧
      c.startTransition.log =
          c.log ++ c.listeners.map
            (fun h => (h, AnimationState.DOOR_OPENING, AnimationState.IDLE))) ∧
    (∀ (c : Controller) (ds : List ℚ),
      c.ts.currentState = AnimationState.IDLE →
      (c.startTransition.ticks ds).startTransition =
        c.startTransition.ticks ds) := by
  refine ⟨fun c h => Controller.startTransition_of_ne_IDLE c h, ?_, ?_⟩
  · intro c h
    unfold Controller.startTransition
    rw [if_pos h]
    exact ⟨rfl, rfl, rfl⟩
  · intro c ds h
    apply Controller.startTransition_of_ne_IDLE
    apply Controller.ticks_currentState_ne_IDLE
    unfold Controller.startTransition
    rw [if_pos h]
    show AnimationState.DOOR_OPENING ≠ AnimationState.IDLE
    decide

/-- Witness for C3: starting the freshly constructed sample controller moves
it to `DOOR_OPENING` with zeroed progress and elapsed time. -/
theorem startTransition_spec_witness :
    sampleController.startTransition.ts =
      { currentState := AnimationState.DOOR_OPENING, progress := 0,
        totalElapsed := 0, selectedGame := sampleController.ts.selectedGame } :=
  (startTransition_spec.2.1 sampleController rfl).1

/-- Claim C8: the machine enters `DRAGGING` at the timeline instant
`drag.start`, which equals `handPause.end` for every configuration; any tick
that crosses that boundary (the phase index passes from below the `DRAGGING`
index 3 to at least it) synchronously installs the injected provider's game,
so `selectedGame` is non-null at that instant; and once non-null, no
subsequent tick ever clears it. -/
theorem dragging_selection_spec :
    (∀ config : TransitionConfig,
      (calculateTimeline config).drag.start =
        (calculateTimeline config).handPause.«end») ∧
    (∀ (c : Controller) (d : ℚ),
      c.ts.currentState ≠ AnimationState.IDLE →
      c.ts.currentState ≠ AnimationState.NAVIGATING →
      phaseIdx (calculateTimeline c.config) c.ts.totalElapsed < 3 →
      3 ≤ phaseIdx (calculateTimeline c.config) (c.ts.totalElapsed + d) →
      (c.tick d).ts.selectedGame = some c.provider) ∧
    (∀ (c : Controller) (d : ℚ), c.ts.selectedGame.isSome →
      ((c.tick d).ts.selectedGame).isSome) := by
  refine ⟨fun _ => rfl, ?_, ?_⟩
  · intro c d h1 h2 hlo hhi
    unfold Controller.tick
    rw [if_neg (not_or.mpr ⟨h1, h2⟩)]
    show (c.commitCrossings
        (List.range' (phaseIdx (calculateTimeline c.config) c.ts.totalElapsed)
          (phaseIdx (calculateTimeline c.config) (c.ts.totalElapsed + d) -
            phaseIdx (calculateTimeline c.config)
              c.ts.totalElapsed))).ts.selectedGame = some c.provider
    rw [Controller.commitCrossings_selectedGame]
    have hmem : 2 ∈ List.range'
        (phaseIdx (calculateTimeline c.config) c.ts.totalElapsed)
        (phaseIdx (calculateTimeline c.config) (c.ts.totalElapsed + d) -
          phaseIdx (calculateTimeline c.config) c.ts.totalElapsed) := by
      rw [List.mem_range'_1]
      omega
    rw [if_pos hmem]
  · intro c d hsome
    unfold Controller.tick
    split_ifs with hg
    · exact hsome
    · show ((c.commitCrossings
          (List.range' (phaseIdx (calculateTimeline c.config) c.ts.totalElapsed)
            (phaseIdx (calculateTimeline c.config) (c.ts.totalElapsed + d) -
              phaseIdx (calculateTimeline c.config)
                c.ts.totalElapsed))).ts.selectedGame).isSome
      rw [Controller.commitCrossings_selectedGame]
      split_ifs
      · rfl
      · exact hsome

lemma sampleTimeline :
    calculateTimeline sampleConfig =
      { door := { start := 0, «end» := 1 },
        handEmerging := { start := 1, «end» := 2 },
        handPause := { start := 2, «end» := 5 / 2 },
        drag := { start := 5 / 2, «end» := 9 / 2 },
        fade := { start := 39 / 10, «end» := 49 / 10 },
        navigate := { start := 49 / 10, «end» := 49 / 10 } } := by
  norm_num [calculateTimeline, sampleConfig]

lemma phaseIdx_sample_zero : phaseIdx (calculateTimeline sampleConfig) 0 = 0 := by
  rw [sampleTimeline]
  norm_num [phaseIdx]

lemma phaseIdx_sample_three :
    phaseIdx (calculateTimeline sampleConfig) ((0 : ℚ) + 3) = 3 := by
  rw [sampleTimeline]
  norm_num [phaseIdx]

/-- Witness for C8: ticking the just-started sample controller 3 seconds
crosses into `DRAGGING` and installs the provider's game. -/
theorem dragging_selection_spec_witness :
    (sampleController.startTransition.tick 3).ts.selectedGame =
      some sampleController.startTransition.provider :=
  dragging_selection_spec.2.1 sampleController.startTransition 3
    (by decide) (by decide)
    (by show phaseIdx (calculateTimeline sampleConfig) 0 < 3
        rw [phaseIdx_sample_zero]
        norm_num)
    (by show 3 ≤ phaseIdx (calculateTimeline sampleConfig) ((0 : ℚ) + 3)
        rw [phaseIdx_sample_three])

lemma applyOp_handle_invariant (c : Controller) (o : Op) (h : ℕ)
    (h1 : h ∉ c.listeners) (h2 : h < c.nextId) :
    h ∉ (applyOp c o).listeners ∧ h < (applyOp c o).nextId := by
  cases o with
  | start =>
      show h ∉ c.startTransition.listeners ∧ h < c.startTransition.nextId
      unfold Controller.startTransition
      split_ifs <;> exact ⟨h1, h2⟩
  | reset => exact ⟨h1, h2⟩
  | tick d =>
      show h ∉ (c.tick d).listeners ∧ h < (c.tick d).nextId
      unfold Controller.tick
      split_ifs
      · exact ⟨h1, h2⟩
      · constructor
        · show h ∉ (c.commitCrossings
              (List.range' (phaseIdx (calculateTimeline c.config) c.ts.totalElapsed)
                (phaseIdx (calculateTimeline c.config) (c.ts.totalElapsed + d) -
                  phaseIdx (calculateTimeline c.config) c.ts.totalElapsed))).listeners
          rw [Controller.commitCrossings_listeners]
          exact h1
        · show h < (c.commitCrossings
              (List.range' (phaseIdx (calculateTimeline c.config) c.ts.totalElapsed)
                (phaseIdx (calculateTimeline c.config) (c.ts.totalElapsed + d) -
                  phaseIdx (calculateTimeline c.config) c.ts.totalElapsed))).nextId
          rw [Controller.commitCrossings_nextId]
          exact h2
  | subscribe =>
      constructor
      · show h ∉ c.listeners ++ [c.nextId]
        simp only [List.mem_append, List.mem_singleton]
        rintro (hh | hh)
        · exact h1 hh
        · omega
      · show h < c.nextId + 1
        omega
  | unsub k =>
      refine ⟨fun hh => h1 ?_, h2⟩
      exact List.mem_of_mem_filter hh

lemma applyOp_log_suffix (c : Controller) (o : Op) :
    ∃ t, (applyOp c o).log = c.log ++ t ∧ ∀ e ∈ t, e.1 ∈ c.listeners := by
  cases o with
  | start =>
      show ∃ t, c.startTransition.log = c.log ++ t ∧ _
      unfold Controller.startTransition
      split_ifs
      · refine ⟨c.listeners.map
          (fun h => (h, AnimationState.DOOR_OPENING, AnimationState.IDLE)),
          rfl, ?_⟩
        intro e he
        obtain ⟨a, ha, rfl⟩ := List.mem_map.mp he
        exact ha
      · exact ⟨[], by simp, by simp⟩
  | reset =>
      refine ⟨c.listeners.map
        (fun h => (h, AnimationState.IDLE, c.ts.currentState)), rfl, ?_⟩
      intro e he
      obtain ⟨a, ha, rfl⟩ := List.mem_map.mp he
      exact ha
  | tick d =>
      show ∃ t, (c.tick d).log = c.log ++ t ∧ _
      unfold Controller.tick
      split_ifs
      · exact ⟨[], by simp, by simp⟩
      · exact Controller.commitCrossings_log_suffix _ c
  | subscribe => exact ⟨[], by simp [applyOp, Controller.onStateChange], by simp⟩
  | unsub k => exact ⟨[], by simp [applyOp, Controller.unsubscribe], by simp⟩

/-- Claim C7: the handle returned by `onStateChange` is fresh, so after
deregistering it the controller holds neither that handle nor can any later
registration reuse it; consequently, for every operation sequence run after
the deregistration, the observer-invocation log only grows by entries for
other handles — the unsubscribed callback is never invoked again, `reset`
included. -/
theorem unsubscribe_spec :
    (∀ c : Controller,
      c.onStateChange.2 ∉
        (c.onStateChange.1.unsubscribe c.onStateChange.2).listeners ∧
      c.onStateChange.2 <
        (c.onStateChange.1.unsubscribe c.onStateChange.2).nextId) ∧
    (∀ (c : Controller) (h : ℕ) (ops : List Op),
      h ∉ c.listeners → h < c.nextId →
      ∃ t, (applyOps c ops).log = c.log ++ t ∧ ∀ e ∈ t, e.1 ≠ h) := by
  constructor
  · intro c
    constructor
    · show c.nextId ∉
        ((c.listeners ++ [c.nextId]).filter (fun x => x ≠ c.nextId))
      intro hh
      exact absurd rfl (of_decide_eq_true (List.mem_filter.mp hh).2)
    · exact Nat.lt_succ_self _
  · intro c h ops h1 h2
    induction ops generalizing c with
    | nil => exact ⟨[], by simp [applyOps], by simp⟩
    | cons o os ih =>
        obtain ⟨hl1, hl2⟩ := applyOp_handle_invariant c o h h1 h2
        obtain ⟨t1, ht1, hm1⟩ := applyOp_log_suffix c o
        obtain ⟨t2, ht2, hm2⟩ := ih (applyOp c o) hl1 hl2
        refine ⟨t1 ++ t2, ?_, ?_⟩
        · show (applyOps (applyOp c o) os).log = c.log ++ (t1 ++ t2)
          rw [ht2, ht1, List.append_assoc]
        · intro e he
          rcases List.mem_append.mp he with hh | hh
          · exact fun he1 => h1 (he1 ▸ hm1 e hh)
          · exact hm2 e hh

/-- Witness for C7: subscribing to the sample controller and immediately
unsubscribing the returned handle, then starting and resetting, adds no log
entry for that handle. -/
theorem unsubscribe_spec_witness :
    ∃ t, (applyOps
        (sampleController.onStateChange.1.unsubscribe
          sampleController.onStateChange.2)
        [Op.start, Op.reset]).log =
      (sampleController.onStateChange.1.unsubscribe
          sampleController.onStateChange.2).log ++ t ∧
      ∀ e ∈ t, e.1 ≠ sampleController.onStateChange.2 :=
  unsubscribe_spec.2
    (sampleController.onStateChange.1.unsubscribe
      sampleController.onStateChange.2)
    sampleController.onStateChange.2 [Op.start, Op.reset]
    (by decide) (by decide)

/-- The chain indices of the phase boundaries a tick of delta `d` crosses:
one entry per boundary between the phase containing the old elapsed time and
the phase containing the new one, in chronological order. -/
def Controller.crossList (c : Controller) (d : ℚ) : List ℕ :=
  List.range' (phaseIdx (calculateTimeline c.config) c.ts.totalElapsed)
    (phaseIdx (calculateTimeline c.config) (c.ts.totalElapsed + d) -
      phaseIdx (calculateTimeline c.config) c.ts.totalElapsed)

namespace Controller

lemma tick_ts_active (c : Controller) (d : ℚ)
    (h1 : c.ts.currentState ≠ AnimationState.IDLE)
    (h2 : c.ts.currentState ≠ AnimationState.NAVIGATING) :
    (c.tick d).ts =
      { currentState :=
          stateAt (calculateTimeline c.config) (c.ts.totalElapsed + d)
        progress := progressAt (calculateTimeline c.config) (c.ts.totalElapsed + d)
        totalElapsed := c.ts.totalElapsed + d
        selectedGame := (c.commitCrossings (c.crossList d)).ts.selectedGame } := by
  unfold tick
  rw [if_neg (not_or.mpr ⟨h1, h2⟩)]
  rfl

lemma tick_events (c : Controller) (d : ℚ)
    (h1 : c.ts.currentState ≠ AnimationState.IDLE)
    (h2 : c.ts.currentState ≠ AnimationState.NAVIGATING) :
    (c.tick d).events =
      c.events ++ (c.crossList d).map (fun i => (stateOfIdx (i + 1), stateOfIdx i)) := by
  unfold tick
  rw [if_neg (not_or.mpr ⟨h1, h2⟩)]
  show (c.commitCrossings (c.crossList d)).events = _
  exact commitCrossings_events _ c

lemma tick_selectedGame (c : Controller) (d : ℚ)
    (h1 : c.ts.currentState ≠ AnimationState.IDLE)
    (h2 : c.ts.currentState ≠ AnimationState.NAVIGATING) :
    (c.tick d).ts.selectedGame =
      if 2 ∈ c.crossList d then some c.provider else c.ts.selectedGame := by
  rw [tick_ts_active c d h1 h2]
  exact commitCrossings_selectedGame _ c

lemma crossList_pairwise (c : Controller) (d : ℚ) :
    (c.crossList d).Pairwise (· < ·) := by
  unfold crossList
  exact List.pairwise_lt_range' _ _

lemma crossList_bounded (c : Controller) (d : ℚ) :
    ∀ i ∈ c.crossList d, i ≤ 4 := by
  intro i hi
  unfold crossList at hi
  have hm := List.mem_range'_1.mp hi
  have h5a := phaseIdx_le_five (calculateTimeline c.config) c.ts.totalElapsed
  have h5b := phaseIdx_le_five (calculateTimeline c.config) (c.ts.totalElapsed + d)
  omega

lemma tick_completions (c : Controller) (d : ℚ)
    (h1 : c.ts.currentState ≠ AnimationState.IDLE)
    (h2 : c.ts.currentState ≠ AnimationState.NAVIGATING) :
    (c.tick d).completions =
      c.completions ++
        (if 4 ∈ c.crossList d then
           [if 2 ∈ c.crossList d then some c.provider else c.ts.selectedGame]
         else []) := by
  unfold tick
  rw [if_neg (not_or.mpr ⟨h1, h2⟩)]
  show (c.commitCrossings (c.crossList d)).completions = _
  exact commitCrossings_completions _ c (crossList_pairwise c d) (crossList_bounded c d)

end Controller

/-- Claim C6: while a transition is active, a tick of delta `d ≥ 0` advances
`totalElapsed` by `d` and recomputes `currentState` and `progress` from the
timeline interval containing the new elapsed time; the event history grows by
exactly one notification per phase boundary crossed, listed in chronological
phase order (`crossList` enumerates the crossed boundaries in increasing
order), so a large delta skipping several phases still yields one
notification per intermediate boundary; the machine is in `NAVIGATING`
afterwards exactly when the new elapsed time has reached `navigate.start`,
and in that case (and only then) the completion callback history grows by
exactly one invocation carrying the selected game reference; and a tick in
`NAVIGATING` changes nothing at all until reset. -/
theorem tick_spec :
    (∀ (c : Controller) (d : ℚ),
      c.ts.currentState = AnimationState.NAVIGATING → c.tick d = c) ∧
    (∀ (c : Controller) (d : ℚ),
      0 ≤ d → c.config.Nonneg →
      c.ts.currentState ≠ AnimationState.IDLE →
      c.ts.currentState ≠ AnimationState.NAVIGATING →
      stateAt (calculateTimeline c.config) c.ts.totalElapsed = c.ts.currentState →
      ((c.tick d).ts.totalElapsed = c.ts.totalElapsed + d ∧
       (c.tick d).ts.currentState =
         stateAt (calculateTimeline c.config) (c.ts.totalElapsed + d) ∧
       (c.tick d).ts.progress =
         progressAt (calculateTimeline c.config) (c.ts.totalElapsed + d) ∧
       ((c.tick d).ts.currentState = AnimationState.NAVIGATING ↔
         (calculateTimeline c.config).navigate.start ≤ c.ts.totalElapsed + d) ∧
       (c.tick d).events =
         c.events ++
           (c.crossList d).map (fun i => (stateOfIdx (i + 1), stateOfIdx i)) ∧
       (c.tick d).completions =
         c.completions ++
           (if (calculateTimeline c.config).navigate.start ≤ c.ts.totalElapsed + d
            then [(c.tick d).ts.selectedGame] else []))) := by
  constructor
  · intro c d h
    unfold Controller.tick
    rw [if_pos (Or.inr h)]
  · intro c d hd hcfg h1 h2 hcons
    have hts := Controller.tick_ts_active c d h1 h2
    have hi5a := phaseIdx_le_five (calculateTimeline c.config) c.ts.totalElapsed
    have hi5b := phaseIdx_le_five (calculateTimeline c.config) (c.ts.totalElapsed + d)
    have hmono : phaseIdx (calculateTimeline c.config) c.ts.totalElapsed ≤
        phaseIdx (calculateTimeline c.config) (c.ts.totalElapsed + d) :=
      phaseIdx_mono _ (by linarith)
    have hi0 : phaseIdx (calculateTimeline c.config) c.ts.totalElapsed ≤ 4 := by
      rcases Nat.lt_or_ge
        (phaseIdx (calculateTimeline c.config) c.ts.totalElapsed) 5 with hh | hh
      · omega
      · exfalso
        apply h2
        rw [← hcons]
        unfold stateAt
        rw [stateOfIdx_eq_NAVIGATING]
        omega
    have hiff : ((c.tick d).ts.currentState = AnimationState.NAVIGATING ↔
        (calculateTimeline c.config).navigate.start ≤ c.ts.totalElapsed + d) := by
      rw [hts]
      show stateAt (calculateTimeline c.config) (c.ts.totalElapsed + d) =
          AnimationState.NAVIGATING ↔ _
      unfold stateAt
      rw [stateOfIdx_eq_NAVIGATING]
      constructor
      · intro hh
        exact navigate_le_of_phaseIdx_eq_five _ _ (by omega)
      · intro hh
        rw [phaseIdx_eq_five_of_navigate_le c.config hcfg _ hh]
    have hsel := Controller.tick_selectedGame c d h1 h2
    have hcomp := Controller.tick_completions c d h1 h2
    have h4mem : (4 ∈ c.crossList d) ↔
        ((calculateTimeline c.config).navigate.start ≤ c.ts.totalElapsed + d) := by
      unfold Controller.crossList
      rw [List.mem_range'_1]
      constructor
      · intro hh
        apply navigate_le_of_phaseIdx_eq_five
        omega
      · intro hh
        rw [phaseIdx_eq_five_of_navigate_le c.config hcfg _ hh]
        omega
    refine ⟨?_, ?_, ?_, hiff, Controller.tick_events c d h1 h2, ?_⟩
    · rw [hts]
    · rw [hts]
    · rw [hts]
    · rw [hcomp, hsel]
      rcases le_or_lt (calculateTimeline c.config).navigate.start
        (c.ts.totalElapsed + d) with hnav | hnav
      · rw [if_pos (h4mem.mpr hnav), if_pos hnav]
      · rw [if_neg (by rw [h4mem]; exact not_le.mpr hnav),
          if_neg (not_le.mpr hnav)]

/-- Witness for C6: ticking the just-started sample controller by 5 seconds
advances its elapsed time from 0 to 5. -/
theorem tick_spec_witness :
    (sampleController.startTransition.tick 5).ts.totalElapsed =
      sampleController.startTransition.ts.totalElapsed + 5 :=
  (tick_spec.2 sampleController.startTransition 5
    (by norm_num)
    (by show sampleConfig.Nonneg
        norm_num [TransitionConfig.Nonneg, sampleConfig])
    (by decide) (by decide)
    (by show stateAt (calculateTimeline sampleConfig) 0 = AnimationState.DOOR_OPENING
        unfold stateAt
        rw [phaseIdx_sample_zero]
        rfl)).1
